import Mathlib

/-!
Verification development for the chan-downloader sync-cycle engine.

The definitions below are a shallow embedding of the Rust sources
`src/lib.rs` and `src/bin.rs`: pure functions become Lean functions,
the regex scan of `get_image_links` is hand-compiled into an explicit
backtracking matcher with the regex crate's leftmost-first semantics,
effectful operations (HTTP fetches, filesystem probes) become explicit
parameters, and operations that can panic return `Option`.
-/

namespace ChanDownloader

/-! ## Link extraction (`lib.rs`, `get_image_links`)

The regex literal at `lib.rs:138` is

  `(//i(?:s|mg)?(?:\d*)?\.(?:4cdn|4chan|4plebs)\.org/(?:\w+/){1,3}(?:\d+/){0,2}(\d+\.(?:jpg|png|gif|webm)))`

and `captures_iter` yields successive non-overlapping leftmost matches.
The matcher below hand-compiles exactly this pattern.  Character classes
are modelled over ASCII (the counterexample and witness inputs are ASCII,
where the Rust semantics agree). -/

/-- The regex class `\w`, restricted to ASCII: letters, digits, underscore. -/
def isWordChar (c : Char) : Bool :=
  c.isAlphanum || c == '_'

/-- Leftmost-first alternation on optional results: keep the first branch
that succeeds. -/
def firstSome (a b : Option α) : Option α :=
  match a with
  | some x => some x
  | none => b

/-- Maximal run of characters satisfying `p` (greedy munch): returns the
run and the rest of the input. -/
def takeRun (p : Char → Bool) : List Char → List Char × List Char
  | [] => ([], [])
  | c :: rest =>
    if p c then
      let r := takeRun p rest
      (c :: r.1, r.2)
    else ([], c :: rest)

/-- One repetition of `\w+/`.  `\w+` is greedy; giving characters back
cannot help, because the character after a shorter run is a word
character and `/` is not, so maximal munch is complete. -/
def matchWordSlash (cs : List Char) : Option (List Char) :=
  match takeRun isWordChar cs with
  | ([], _) => none
  | (_ :: _, '/' :: rest) => some rest
  | (_ :: _, _) => none

/-- One repetition of `\d+/`; maximal munch is complete as for `\w+/`. -/
def matchDigitsSlash (cs : List Char) : Option (List Char) :=
  match takeRun Char.isDigit cs with
  | ([], _) => none
  | (_ :: _, '/' :: rest) => some rest
  | (_ :: _, _) => none

/-- The extension alternation `(?:jpg|png|gif|webm)`, leftmost-first. -/
def matchExt (cs : List Char) : Option (List Char × List Char) :=
  match cs with
  | 'j' :: 'p' :: 'g' :: r => some (['j', 'p', 'g'], r)
  | 'p' :: 'n' :: 'g' :: r => some (['p', 'n', 'g'], r)
  | 'g' :: 'i' :: 'f' :: r => some (['g', 'i', 'f'], r)
  | 'w' :: 'e' :: 'b' :: 'm' :: r => some (['w', 'e', 'b', 'm'], r)
  | _ => none

/-- Capture group 2, `(\d+\.(?:jpg|png|gif|webm))`: returns the captured
file name and the rest.  `\d+` is greedy and `.` is not a digit, so
maximal munch is complete. -/
def matchName (cs : List Char) : Option (List Char × List Char) :=
  match takeRun Char.isDigit cs with
  | ([], _) => none
  | (d :: ds, '.' :: rest) =>
    match matchExt rest with
    | some (ext, rem) => some ((d :: ds) ++ '.' :: ext, rem)
    | none => none
  | (_ :: _, _) => none

/-- `(?:\d+/){0,n}` followed by the captured name, greedy: more
repetitions are tried before fewer (the regex backtracks from the name
into the repetition count). -/
def matchDigitGroups : Nat → List Char → Option (List Char × List Char)
  | 0, cs => matchName cs
  | n + 1, cs =>
    firstSome
      (match matchDigitsSlash cs with
       | some rest => matchDigitGroups n rest
       | none => none)
      (matchName cs)

/-- Up to `n` further repetitions of `\w+/`, then `(?:\d+/){0,2}` and the
name, greedy with backtracking over the repetition counts. -/
def matchWordGroups : Nat → List Char → Option (List Char × List Char)
  | 0, cs => matchDigitGroups 2 cs
  | n + 1, cs =>
    firstSome
      (match matchWordSlash cs with
       | some rest => matchWordGroups n rest
       | none => none)
      (matchDigitGroups 2 cs)

/-- `\.org/`. -/
def matchOrgSlash (cs : List Char) : Option (List Char) :=
  match cs with
  | '.' :: 'o' :: 'r' :: 'g' :: '/' :: r => some r
  | _ => none

/-- The domain alternation `(?:4cdn|4chan|4plebs)` followed by `\.org/`,
leftmost-first. -/
def matchDomain (cs : List Char) : Option (List Char) :=
  match cs with
  | '4' :: 'c' :: 'd' :: 'n' :: r => matchOrgSlash r
  | '4' :: 'c' :: 'h' :: 'a' :: 'n' :: r => matchOrgSlash r
  | '4' :: 'p' :: 'l' :: 'e' :: 'b' :: 's' :: r => matchOrgSlash r
  | _ => none

/-- `(?:\d*)?\.` then domain: the digit run is greedy and `.` is not a
digit, so maximal munch is complete. -/
def matchHostTail (cs : List Char) : Option (List Char) :=
  match takeRun Char.isDigit cs with
  | (_, '.' :: rest) => matchDomain rest
  | (_, _) => none

/-- `(?:s|mg)?` then the rest of the host.  The three branches are tried
leftmost-first; they are mutually exclusive on the first character, so
no cross-branch backtracking is ever exercised. -/
def matchHostHead (cs : List Char) : Option (List Char) :=
  firstSome
    (match cs with
     | 's' :: r => matchHostTail r
     | _ => none)
    (firstSome
      (match cs with
       | 'm' :: 'g' :: r => matchHostTail r
       | _ => none)
      (matchHostTail cs))

/-- Attempt the whole pattern at the head of `cs`: on success, the
captured file name (group 2) and the rest after the whole match. -/
def matchLinkAt (cs : List Char) : Option (List Char × List Char) :=
  match cs with
  | '/' :: '/' :: 'i' :: r =>
    match matchHostHead r with
    | some r2 =>
      match matchWordSlash r2 with
      | some r3 => matchWordGroups 2 r3
      | none => none
    | none => none
  | _ => none

/-- Scan for successive non-overlapping leftmost matches, as
`captures_iter` does.  Each element is (capture 1 = whole match,
capture 2 = file name).  The fuel argument only bounds the recursion:
every step strictly shortens the input (a match consumes at least
`//i`), so fuel `length + 1` never truncates. -/
def scanAux : Nat → List Char → List (String × String)
  | 0, _ => []
  | _ + 1, [] => []
  | fuel + 1, c :: cs =>
    match matchLinkAt (c :: cs) with
    | some (name, rest) =>
      (((c :: cs).take ((c :: cs).length - rest.length)).asString, name.asString)
        :: scanAux fuel rest
    | none => scanAux fuel cs

/-- All raw captures of the regex over the page text, in text order. -/
def scanCaptures (s : String) : List (String × String) :=
  scanAux (s.data.length + 1) s.data

/-- `lib.rs` `Link`: remote url (capture 1) and local file name (capture 2). -/
structure Link where
  url  : String
  name : String
  deriving DecidableEq

/-- Build a `Link` from one capture pair, as the loop at `lib.rs:145-150`. -/
def capToLink (c : String × String) : Link :=
  { url := c.1, name := c.2 }

/-- Rust's `Iterator::step_by(2)`: the elements at indices 0, 2, 4, …. -/
def stepBy2 : List α → List α
  | [] => []
  | [a] => [a]
  | a :: _ :: rest => a :: stepBy2 rest

/-- `lib.rs:135-152` `get_image_links`: every second raw capture, turned
into a `Link`. -/
def get_image_links (page_content : String) : List Link :=
  (stepBy2 (scanCaptures page_content)).map capToLink

/-- The count logged at `lib.rs:142-143`: raw captures divided by two
(integer division). -/
def number_of_links (page_content : String) : Nat :=
  (scanCaptures page_content).length / 2

/-- Each element repeated twice in place: the capture stream shape the
spec describes ("the underlying matching mechanism yields each link's
information twice"). -/
def doubleEach : List α → List α
  | [] => []
  | a :: rest => a :: a :: doubleEach rest

/-! ## Thread info (`lib.rs`, `get_thread_info`) -/

/-- `lib.rs` `Thread`.  The id field is `u32` in the source; `parseU32`
below enforces the `u32` range. -/
structure Thread where
  board : String
  id    : Nat
  deriving DecidableEq

/-- Rust's `str::split(sep)` for a one-character separator: the pieces
between occurrences of `sep`, always at least one piece. -/
def splitCharAux (sep : Char) : List Char → List Char → List String
  | [], acc => [acc.reverse.asString]
  | c :: rest, acc =>
    if c == sep then acc.reverse.asString :: splitCharAux sep rest []
    else splitCharAux sep rest (c :: acc)

/-- Split a string on a one-character separator, Rust `split` semantics. -/
def splitChar (sep : Char) (s : String) : List String :=
  splitCharAux sep s.data []

/-- Rust's `str::parse::<u32>`: optional leading `+`, then one or more
ASCII digits, value within the `u32` range; anything else fails. -/
def parseU32 (s : String) : Option Nat :=
  let ds := match s.data with
            | '+' :: rest => rest
            | l => l
  if ds.isEmpty then none
  else if ds.all Char.isDigit then
    let v := ds.foldl (fun a c => a * 10 + (c.toNat - 48)) 0
    if v < 4294967296 then some v else none
  else none

/-- `lib.rs:94-106` `get_thread_info`: board from path segment 3, id from
segment 5 with any `#fragment` stripped.  The Rust indexing `url_vec[3]`
and `url_vec[5]` panics when the segment is missing, and
`.parse::<u32>().expect(..)` panics on a non-numeric id; both panics are
modelled as `none`.  `thread_vec[0]` always exists because `split`
returns a non-empty list, hence `headD`. -/
def get_thread_info (url : String) : Option Thread :=
  match (splitChar '/' url)[3]?, (splitChar '/' url)[5]? with
  | some board_name, some seg =>
    match parseU32 ((splitChar '#' seg).headD "") with
    | some n => some { board := board_name, id := n }
    | none => none
  | _, _ => none

/-- Transcribed from the spec's malformed-locator condition, for
comparison with `get_thread_info`: at least six slash-separated
segments and a numeric id in segment 5 (fragment stripped). -/
def wellFormedLocator (url : String) : Bool :=
  decide (5 < (splitChar '/' url).length) &&
    (parseU32 ((splitChar '#' ((splitChar '/' url).getD 5 "")).headD "")).isSome

/-! ## Dedup ledger (`bin.rs`, `DOWNLOADED_FILES` / `mark_as_downloaded`)

`DOWNLOADED_FILES` is a `Mutex<Vec<String>>`; in this sequential
embedding the lock always succeeds, so the `Err` branch of
`mark_as_downloaded` (mutex poisoning) never fires and the operation is
its effect on the vector. -/

/-- `bin.rs:77-84` `mark_as_downloaded`: `Vec::push` of the path. -/
def mark_as_downloaded (db : List String) (file : String) : List String :=
  db ++ [file]

/-- The ledger consultation at `bin.rs:116-121`: `Vec::contains`. -/
def ledger_contains (db : List String) (path : String) : Bool :=
  db.contains path

/-- An observable ledger operation: a `contains` query or a `record`. -/
inductive LedgerOp where
  | query (path : String)
  | record (path : String)

/-- Effect of one ledger operation on the vector: queries do not mutate,
records push. -/
def applyLedgerOp (db : List String) : LedgerOp → List String
  | .query _ => db
  | .record p => mark_as_downloaded db p

/-- Effect of a sequence of ledger operations. -/
def runLedgerOps (db : List String) (ops : List LedgerOp) : List String :=
  ops.foldl applyLedgerOp db

/-! ## Fetch-and-save worker (`lib.rs` `save_image`, `bin.rs` worker body) -/

/-- Result of one HTTP GET as seen by `save_image`: a transport error
(`send()` returns `Err`) or a response with a status code. -/
inductive FetchResult where
  | transportError
  | response (status : Nat)
  deriving DecidableEq

/-- reqwest's `StatusCode::is_success`: 200 ≤ status ≤ 299. -/
def statusIsSuccess (s : Nat) : Bool :=
  decide (200 ≤ s) && decide (s < 300)

/-- What `save_image` produces: its `Result` value, plus whether a file
was created at the path (the `File::create` + `io::copy` under the
`is_success` test). -/
structure SaveResult where
  result  : Except String String
  written : Bool

/-- `lib.rs:45-56` `save_image`: a transport error propagates via `?`;
otherwise the body is written only under `status().is_success()`, and
`Ok(path)` is returned in both status cases. -/
def save_image (fetch : FetchResult) (path : String) : SaveResult :=
  match fetch with
  | .transportError => { result := .error "request error", written := false }
  | .response s =>
    if statusIsSuccess s then { result := .ok path, written := true }
    else { result := .ok path, written := false }

/-- The three per-link outcomes the worker branches distinguish. -/
inductive Outcome where
  | downloaded
  | skipped
  | failed
  deriving DecidableEq

/-- What one worker run yields: its outcome, the ledger after it, and
whether a file was written. -/
structure WorkerResult where
  outcome : Outcome
  ledger  : List String
  written : Bool

/-- `bin.rs:112-145`, the per-link worker body: skip when the ledger
already has the path; otherwise, when the file is not on disk, run
`save_image` and on `Ok` mark the path as downloaded; when the file is
on disk, skip and mark it. -/
def process_link (ledger : List String) (onDisk : Bool) (fetch : FetchResult)
    (image_path : String) : WorkerResult :=
  if ledger_contains ledger image_path then
    { outcome := .skipped, ledger := ledger, written := false }
  else if !onDisk then
    let s := save_image fetch image_path
    match s.result with
    | .ok path =>
      { outcome := .downloaded, ledger := mark_as_downloaded ledger path,
        written := s.written }
    | .error _ => { outcome := .failed, ledger := ledger, written := s.written }
  else
    { outcome := .skipped, ledger := mark_as_downloaded ledger image_path,
      written := false }

/-! ## Sync cycle (`bin.rs`, `explore_thread`) -/

/-- `bin.rs:87-162` `explore_thread`, with the page fetch, the disk
probe and the per-link fetches passed in explicitly.  On `Ok` page
content the links are extracted and every link is processed (the
pool's aggregate ledger effect, worker scheduling abstracted); on a
fetch error the function returns `Err(anyhow!(e))` — the error branch at
`bin.rs:154-158`. -/
def explore_thread (page : Except String String) (dir : String)
    (onDisk : String → Bool) (fetch : String → FetchResult)
    (ledger : List String) : Except String (List String) :=
  match page with
  | .ok content =>
    let links := get_image_links content
    .ok (links.foldl
      (fun db link =>
        (process_link db (onDisk (dir ++ "/" ++ link.name))
          (fetch ("https:" ++ link.url)) (dir ++ "/" ++ link.name)).ledger)
      ledger)
  | .error e => .error e

/-- `main`'s call site `explore_thread(..).unwrap()` (`bin.rs:60`):
`Result::unwrap` panics on `Err`, modelled as `none`. -/
def unwrapCycle (r : Except String (List String)) : Option (List String) :=
  match r with
  | .ok v => some v
  | .error _ => none

/-! ## Poll scheduler (`bin.rs`, the loop in `main`) -/

/-- The loop at `bin.rs:58-72`, abstracted over wall-clock time: the
list holds the duration of each successive cycle, `elapsed` the total
time since `start`.  Each pass runs one cycle, adds its duration, then
checks `runtime > limit_time` and breaks; otherwise it sleeps
`wait_time.checked_sub(load_runtime)` (truncated subtraction: no sleep
when the cycle outran the interval) and continues.  The result is the
number of cycles run. -/
def main_loop (limit_time wait_time : Nat) : List Nat → Nat → Nat
  | [], _ => 0
  | d :: ds, elapsed =>
    let runtime := elapsed + d
    if limit_time < runtime then 1
    else 1 + main_loop limit_time wait_time ds (runtime + (wait_time - d))

/-! ## Helper lemmas about `stepBy2` -/

theorem stepBy2_length : ∀ (l : List α), (stepBy2 l).length = (l.length + 1) / 2
  | [] => by simp [stepBy2]
  | [_] => by simp [stepBy2]
  | _ :: _ :: t => by
    simp only [stepBy2, List.length_cons, stepBy2_length t]
    omega

theorem stepBy2_getElem? : ∀ (l : List α) (i : Nat), (stepBy2 l)[i]? = l[2 * i]?
  | [], _ => by simp [stepBy2]
  | [_], 0 => by simp [stepBy2]
  | [_], i + 1 => by
    have h2 : 2 * (i + 1) = 2 * i + 1 + 1 := by omega
    simp [stepBy2, h2]
  | _ :: _ :: _, 0 => by simp [stepBy2]
  | _ :: _ :: t, i + 1 => by
    have h2 : 2 * (i + 1) = 2 * i + 1 + 1 := by omega
    simp only [stepBy2, h2, List.getElem?_cons_succ]
    exact stepBy2_getElem? t i

theorem stepBy2_doubleEach : ∀ (l : List α), stepBy2 (doubleEach l) = l
  | [] => rfl
  | a :: t => by simp [doubleEach, stepBy2, stepBy2_doubleEach t]

theorem stepBy2_replicate (c : α) :
    ∀ (k : Nat), stepBy2 (List.replicate k c) = List.replicate ((k + 1) / 2) c
  | 0 => rfl
  | 1 => rfl
  | k + 2 => by
    have h : (k + 2 + 1) / 2 = (k + 1) / 2 + 1 := by omega
    simp only [List.replicate_succ, stepBy2, h, stepBy2_replicate c k]

/-! ## Helper lemmas about `get_thread_info` -/

theorem get_thread_info_some_of (url board seg : String) (n : Nat)
    (h3 : (splitChar '/' url)[3]? = some board)
    (h5 : (splitChar '/' url)[5]? = some seg)
    (hp : parseU32 ((splitChar '#' seg).headD "") = some n) :
    get_thread_info url = some { board := board, id := n } := by
  unfold get_thread_info
  simp only [h3, h5, hp]

theorem get_thread_info_none_of_parse (url seg : String)
    (h5 : (splitChar '/' url)[5]? = some seg)
    (hp : parseU32 ((splitChar '#' seg).headD "") = none) :
    get_thread_info url = none := by
  have hlen : 5 < (splitChar '/' url).length := by
    by_contra hc
    rw [List.getElem?_eq_none (by omega)] at h5
    exact Option.noConfusion h5
  have h3 : (splitChar '/' url)[3]? = some ((splitChar '/' url)[3]) :=
    List.getElem?_eq_getElem (by omega)
  unfold get_thread_info
  simp only [h3, h5, hp]

theorem get_thread_info_none_of_seg (url : String)
    (h5 : (splitChar '/' url)[5]? = none) :
    get_thread_info url = none := by
  unfold get_thread_info
  cases hg3 : (splitChar '/' url)[3]? <;> simp only [hg3, h5]

/-! ## Claim theorems -/

/-- C10: for every page text, `get_image_links` returns exactly the
even-indexed raw captures — `ceil(n/2)` links for `n` captures, the
`i`-th returned link being capture `2i` — while the logged link count is
`n/2` rounded down; and when the same capture occurs an odd number of
times greater than one, the returned sequence contains that resource
more than once. -/
theorem get_image_links_even_indexed (text : String) :
    (get_image_links text).length = ((scanCaptures text).length + 1) / 2 ∧
    number_of_links text = (scanCaptures text).length / 2 ∧
    (∀ i : Nat,
      (get_image_links text)[i]? = ((scanCaptures text)[2 * i]?).map capToLink) ∧
    (∀ (c : String × String) (k : Nat),
      scanCaptures text = List.replicate k c → k % 2 = 1 → 1 < k →
      1 < (get_image_links text).count (capToLink c)) := by
  refine ⟨?_, rfl, ?_, ?_⟩
  · simp [get_image_links, stepBy2_length]
  · intro i
    simp [get_image_links, List.getElem?_map, stepBy2_getElem?]
  · intro c k hscan hodd hk
    have hrep : get_image_links text = List.replicate ((k + 1) / 2) (capToLink c) := by
      simp [get_image_links, hscan, stepBy2_replicate, List.map_replicate]
    rw [hrep, List.count_replicate_self]
    omega

/-- C10 witness: a page text whose scan yields the same capture three
times; the extractor returns that resource twice. -/
theorem get_image_links_even_indexed_witness :
    1 < (get_image_links
      "a //i.4cdn.org/wg/111.jpg //i.4cdn.org/wg/111.jpg //i.4cdn.org/wg/111.jpg").count
      (capToLink ("//i.4cdn.org/wg/111.jpg", "111.jpg")) :=
  (get_image_links_even_indexed
      "a //i.4cdn.org/wg/111.jpg //i.4cdn.org/wg/111.jpg //i.4cdn.org/wg/111.jpg").2.2.2
    ("//i.4cdn.org/wg/111.jpg", "111.jpg") 3 (by decide) (by decide) (by decide)

/-- C1 counterexample: a page text whose scan yields two distinct
resources once each; `get_image_links` returns only the first, so it
does not return one `Link` per distinct resource. -/
theorem extract_links_distinct_counterexample :
    scanCaptures "<a href=\"//i.4cdn.org/wg/111.jpg\"> <a href=\"//i.4cdn.org/wg/222.jpg\">" =
      [("//i.4cdn.org/wg/111.jpg", "111.jpg"), ("//i.4cdn.org/wg/222.jpg", "222.jpg")] ∧
    get_image_links "<a href=\"//i.4cdn.org/wg/111.jpg\"> <a href=\"//i.4cdn.org/wg/222.jpg\">" =
      [{ url := "//i.4cdn.org/wg/111.jpg", name := "111.jpg" }] :=
  ⟨by decide, by decide⟩

/-- C1 (amended): when the raw capture stream yields each logical link's
captures exactly twice in adjacent positions, `get_image_links` returns
exactly one `Link` per logical link, in the order first encountered. -/
theorem extract_links_doubled_adjacent (text : String) (caps : List (String × String))
    (h : scanCaptures text = doubleEach caps) :
    get_image_links text = caps.map capToLink := by
  simp [get_image_links, h, stepBy2_doubleEach]

/-- C1 witness: the doubled-adjacent page shape (the repository's own
test shape) yields one `Link` for the one logical link. -/
theorem extract_links_doubled_adjacent_witness :
    get_image_links "<a href=\"//i.4cdn.org/wg/111.jpg\"> <a href=\"//i.4cdn.org/wg/111.jpg\">" =
      List.map capToLink [("//i.4cdn.org/wg/111.jpg", "111.jpg")] :=
  extract_links_doubled_adjacent
    "<a href=\"//i.4cdn.org/wg/111.jpg\"> <a href=\"//i.4cdn.org/wg/111.jpg\">"
    [("//i.4cdn.org/wg/111.jpg", "111.jpg")] (by decide)

/-- C2 counterexample: on a transport-layer page-fetch failure
`explore_thread` returns the error to its caller instead of treating the
page as empty content. -/
theorem explore_thread_error_counterexample :
    explore_thread (.error "connection reset by peer") "dir"
      (fun _ => false) (fun _ => .transportError) [] =
      .error "connection reset by peer" := rfl

/-- C2 (amended): on a transport-layer page-fetch failure,
`explore_thread` propagates the error to its caller, and `main`'s
`unwrap` of that result panics, aborting the process. -/
theorem explore_thread_propagates_error (e dir : String) (onDisk : String → Bool)
    (fetch : String → FetchResult) (ledger : List String) :
    explore_thread (.error e) dir onDisk fetch ledger = .error e ∧
    unwrapCycle (explore_thread (.error e) dir onDisk fetch ledger) = none :=
  ⟨rfl, rfl⟩

/-- C3: evaluating the worker at a link whose fetch yields HTTP 404 (a
non-success status): the code takes the `Ok` branch, records the path in
the dedup ledger although no file was written, and does not produce the
`failed` outcome the spec requires. -/
theorem process_link_404_divergence :
    process_link [] false (.response 404) "p" =
      { outcome := .downloaded, ledger := ["p"], written := false } := rfl

/-- C3 auxiliary fact: on a transport error the worker does behave as
specified — outcome `failed`, ledger unchanged, no file written. -/
theorem process_link_transport_error (ledger : List String) (p : String)
    (h : ledger_contains ledger p = false) :
    process_link ledger false .transportError p =
      { outcome := .failed, ledger := ledger, written := false } := by
  simp [process_link, h, save_image]

/-- C3 auxiliary witness. -/
theorem process_link_transport_error_witness :
    process_link [] false .transportError "p" =
      { outcome := .failed, ledger := [], written := false } :=
  process_link_transport_error [] "p" (by decide)

/-- C4 counterexample: recording the same path twice pushes it twice
onto the `Vec`-backed ledger, so the ledger does hold duplicate
entries. -/
theorem mark_twice_duplicates_counterexample :
    mark_as_downloaded (mark_as_downloaded [] "p") "p" = ["p", "p"] ∧
    ¬ (mark_as_downloaded (mark_as_downloaded [] "p") "p").Nodup :=
  ⟨rfl, by decide⟩

/-- C4 (amended): recording the same path twice is not an error and
afterwards `contains` returns true, but each `record` appends one entry,
so the ledger does accumulate duplicates. -/
theorem mark_twice_amended (db : List String) (p : String) :
    ledger_contains (mark_as_downloaded (mark_as_downloaded db p) p) p = true ∧
    (mark_as_downloaded (mark_as_downloaded db p) p).count p = db.count p + 2 := by
  constructor
  · simp [ledger_contains, mark_as_downloaded]
  · simp [mark_as_downloaded, List.count_append]

/-- C5: the scheduler checks the elapsed budget only after a cycle
completes, so at least one cycle always runs and a cycle in flight
always completes; with a zero budget, exactly one cycle runs. -/
theorem scheduler_budget_floor (limit_time wait_time d : Nat) (ds : List Nat) :
    1 ≤ main_loop limit_time wait_time (d :: ds) 0 ∧
    (0 < d → main_loop 0 wait_time (d :: ds) 0 = 1) := by
  constructor
  · simp only [main_loop]
    split <;> omega
  · intro hd
    simp only [main_loop]
    rw [if_pos (by omega)]

/-- C5 witness: a concrete budget and cycle trace. -/
theorem scheduler_budget_floor_witness :
    1 ≤ main_loop 7 5 [3, 2] 0 ∧ main_loop 0 5 [3, 2] 0 = 1 :=
  ⟨(scheduler_budget_floor 7 5 3 [2]).1,
   (scheduler_budget_floor 0 5 3 [2]).2 (by decide)⟩

/-- C6: when segment 3 and segment 5 of the slash-split locator exist
and the part of segment 5 before any `#` parses as a `u32`,
`get_thread_info` returns exactly that board name and id. -/
theorem get_thread_info_positional (url board seg : String) (n : Nat)
    (h3 : (splitChar '/' url)[3]? = some board)
    (h5 : (splitChar '/' url)[5]? = some seg)
    (hp : parseU32 ((splitChar '#' seg).headD "") = some n) :
    get_thread_info url = some { board := board, id := n } := by
  unfold get_thread_info
  simp only [h3, h5, hp]

/-- C6 witness: the spec's scenario locator yields board `wg` and id
`6872254`. -/
theorem get_thread_info_positional_witness :
    get_thread_info "https://boards.4chan.org/wg/thread/6872254" =
      some { board := "wg", id := 6872254 } :=
  get_thread_info_positional "https://boards.4chan.org/wg/thread/6872254"
    "wg" "6872254" 6872254 (by decide) (by decide) (by decide)

/-- C7: `get_thread_info` returns a `Thread` exactly on well-formed
locators — on too few path segments or a non-numeric id it returns no
value (the Rust code panics), and on well-formed locators its failure
branch is unreachable. -/
theorem get_thread_info_wellformed_iff (url : String) :
    (get_thread_info url).isSome = wellFormedLocator url := by
  by_cases h : 5 < (splitChar '/' url).length
  · have h5 : (splitChar '/' url)[5]? = some ((splitChar '/' url)[5]) :=
      List.getElem?_eq_getElem h
    have h3 : (splitChar '/' url)[3]? = some ((splitChar '/' url)[3]) :=
      List.getElem?_eq_getElem (by omega)
    have eD : (splitChar '/' url).getD 5 "" = (splitChar '/' url)[5] := by
      rw [List.getD_eq_getElem?_getD, h5]
      rfl
    cases hp : parseU32 ((splitChar '#' ((splitChar '/' url)[5])).headD "") with
    | some n =>
      rw [get_thread_info_some_of url ((splitChar '/' url)[3]) ((splitChar '/' url)[5]) n
        h3 h5 hp]
      unfold wellFormedLocator
      rw [eD, hp]
      simp [h]
    | none =>
      rw [get_thread_info_none_of_parse url ((splitChar '/' url)[5]) h5 hp]
      unfold wellFormedLocator
      rw [eD, hp]
      simp [h]
  · have h5 : (splitChar '/' url)[5]? = none := List.getElem?_eq_none (by omega)
    rw [get_thread_info_none_of_seg url h5]
    unfold wellFormedLocator
    simp [h]

/-- C8: no ledger operation removes an entry, so across any sequence of
`contains`/`record` calls the ledger's size never decreases. -/
theorem ledger_size_monotone (ops : List LedgerOp) (db : List String) :
    db.length ≤ (runLedgerOps db ops).length := by
  induction ops generalizing db with
  | nil => simp [runLedgerOps]
  | cons op rest ih =>
    have h1 : db.length ≤ (applyLedgerOp db op).length := by
      cases op <;> simp [applyLedgerOp, mark_as_downloaded]
    exact le_trans h1 (ih (applyLedgerOp db op))

end ChanDownloader
